import Mathlib

/-!
Verification of the time-bucketed aggregation engine of `src/map.js` from the
bikewatching repository: the minute-bucket trip index built by the csv row
parser, the `filterByMinute` window resolver, and the `computeStationTraffic`
aggregator.  The JavaScript is shallowly embedded: the two global bucket
arrays are lists of lists, an in-place `push` becomes a functional update,
and the `try`/`catch` around the bucket pushes is modelled by guarding each
push with the exact condition under which it would throw a `TypeError`
(index `NaN` or out of range), a throw skipping the rest of the block.
-/

set_option maxRecDepth 100000

namespace Bikewatching

/-- Result of a successful JavaScript `Date` parse.  Only the hour and minute
components matter to the core (`date.getHours()`, `date.getMinutes()`); a
well-formed date has `hours < 24` and `minutes < 60`. -/
structure JSDate where
  hours : Nat
  minutes : Nat
deriving DecidableEq, Repr

/-- From map.js: `minutesSinceMidnight(date)` is
`date.getHours() * 60 + date.getMinutes()`. -/
def minutesSinceMidnight (date : JSDate) : Nat :=
  date.hours * 60 + date.minutes

/-- A trip record after the csv row parser has run `new Date(...)` on both
timestamp strings.  `none` models an Invalid Date, whose `getHours()` is
`NaN` so every arithmetic result derived from it is `NaN`. -/
structure Trip where
  start_station_id : String
  end_station_id : String
  started_at : Option JSDate
  ended_at : Option JSDate
deriving DecidableEq, Repr

/-- A station roster row: `short_name` is the join key, `lat`/`lon` are
opaque passthrough fields, and the three derived fields are overwritten by
`computeStationTraffic` on every call. -/
structure Station where
  short_name : String
  lat : String
  lon : String
  departures : Nat
  arrivals : Nat
  totalTraffic : Nat
deriving DecidableEq, Repr

/-- The value `minutesSinceMidnight(d.started_at)` computes in the row
parser; `none` when the timestamp failed to parse (the `NaN` case). -/
def tripStartMin (d : Trip) : Option Nat :=
  d.started_at.map minutesSinceMidnight

/-- The value `minutesSinceMidnight(d.ended_at)` computes in the row parser;
`none` when the timestamp failed to parse (the `NaN` case). -/
def tripEndMin (d : Trip) : Option Nat :=
  d.ended_at.map minutesSinceMidnight

/-- One trip record through the try block of the csv row parser (map.js lines
114-121): derive both minutes, push into the departure bucket
(`departuresByMinute[sMin].push(d)`), then push into the arrival bucket.
Either push throws a `TypeError` when its index is `NaN` (the `none` minute)
or out of range, which aborts the rest of the block; the catch swallows the
exception, keeping whatever pushes already happened. -/
def buildStep (st : List (List Trip) × List (List Trip)) (d : Trip) :
    List (List Trip) × List (List Trip) :=
  match tripStartMin d with
  | none => st
  | some sMin =>
    if sMin < st.1.length then
      let dep' := st.1.set sMin (st.1.getD sMin [] ++ [d])
      match tripEndMin d with
      | none => (dep', st.2)
      | some eMin =>
        if eMin < st.2.length then
          (dep', st.2.set eMin (st.2.getD eMin [] ++ [d]))
        else (dep', st.2)
    else st

/-- The pair (departuresByMinute, arrivalsByMinute) of map.js after the
loader has run the row parser over every trip record, starting from 1440
empty buckets each. -/
def buildIndex (trips : List Trip) : List (List Trip) × List (List Trip) :=
  trips.foldl buildStep (List.replicate 1440 [], List.replicate 1440 [])

/-- From map.js: `filterByMinute(tripsByMinute, minute)`.  JavaScript
`slice`/`concat`/`flat` become `drop`/`take`/append/`flatten`; the remainder
arithmetic agrees with JavaScript `%` because every dividend is non-negative
for `minute` in `[-1, 1439]`. -/
def filterByMinute (tripsByMinute : List (List Trip)) (minute : Int) : List Trip :=
  if minute = -1 then tripsByMinute.flatten
  else
    let minMinute := ((minute - 60 + 1440) % 1440).toNat
    let maxMinute := ((minute + 60) % 1440).toNat
    if minMinute > maxMinute then
      (tripsByMinute.drop minMinute ++ tripsByMinute.take maxMinute).flatten
    else
      ((tripsByMinute.drop minMinute).take (maxMinute - minMinute)).flatten

/-- The composition `d3.rollup(trips, v => v.length, key)` followed by
`.get(id) ?? 0`: the number of trips whose key equals `id`; an identifier
absent from the rollup map yields 0 through the nullish coalescing. -/
def rollupGet (trips : List Trip) (key : Trip → String) (stationId : String) : Nat :=
  (trips.filter (fun t => key t == stationId)).length

/-- The `stations.map` closure of `computeStationTraffic` (map.js lines
47-53): writes `departures`, `arrivals` and `totalTraffic` onto every roster
row, in roster order. -/
def aggregate (stations : List Station) (depTrips arrTrips : List Trip) :
    List Station :=
  stations.map (fun station =>
    let d := rollupGet depTrips (fun t => t.start_station_id) station.short_name
    let a := rollupGet arrTrips (fun t => t.end_station_id) station.short_name
    { station with departures := d, arrivals := a, totalTraffic := d + a })

/-- From map.js: `computeStationTraffic(stations, timeFilter)`, with the two
global bucket arrays it closes over passed explicitly. -/
def computeStationTraffic (departuresByMinute arrivalsByMinute : List (List Trip))
    (stations : List Station) (timeFilter : Int) : List Station :=
  aggregate stations (filterByMinute departuresByMinute timeFilter)
    (filterByMinute arrivalsByMinute timeFilter)

/-- The start minute both parses and is a legal bucket index, so the
departure push succeeds. -/
def hasValidStart (d : Trip) : Bool :=
  match tripStartMin d with
  | some n => decide (n < 1440)
  | none => false

/-- The end minute both parses and is a legal bucket index. -/
def hasValidEnd (d : Trip) : Bool :=
  match tripEndMin d with
  | some n => decide (n < 1440)
  | none => false

/-- Both minutes of the trip are derivable: the trip the spec counts in
`validTripCount`. -/
def isValidTrip (d : Trip) : Bool :=
  hasValidStart d && hasValidEnd d

/-- Specification-side description of the resolved window for a center
minute `m`: the 120 circular minutes of the half-open interval from `m - 60`
(inclusive) to `m + 60` (exclusive), enumerated in the order in which the
code concatenates the buckets. -/
def windowMinutes (m : Nat) : List Nat :=
  (List.range 120).map (fun k => (m + 1380 + k) % 1440)

/-- Total number of trips stored across all buckets of one index. -/
def sumSizes (buckets : List (List Trip)) : Nat :=
  (buckets.map List.length).sum

/-- Demo trip from station A to station B, 11:40 to 11:45 (minutes 700 and
705). -/
def tripAB : Trip :=
  { start_station_id := "A", end_station_id := "B",
    started_at := some { hours := 11, minutes := 40 },
    ended_at := some { hours := 11, minutes := 45 } }

/-- Demo trip from station B to station A, 11:45 to 11:50. -/
def tripBA : Trip :=
  { start_station_id := "B", end_station_id := "A",
    started_at := some { hours := 11, minutes := 45 },
    ended_at := some { hours := 11, minutes := 50 } }

/-- A trip with a parseable start (minute 700) but a malformed end
timestamp. -/
def tripBadEnd : Trip :=
  { start_station_id := "A", end_station_id := "B",
    started_at := some { hours := 11, minutes := 40 }, ended_at := none }

/-- A valid trip between stations absent from the demo roster, minutes 700
and 705. -/
def tripCC : Trip :=
  { start_station_id := "C", end_station_id := "C",
    started_at := some { hours := 11, minutes := 40 },
    ended_at := some { hours := 11, minutes := 45 } }

/-- A trip that starts (and ends) at minute 640, i.e. 10:40. -/
def trip640 : Trip :=
  { start_station_id := "A", end_station_id := "B",
    started_at := some { hours := 10, minutes := 40 },
    ended_at := some { hours := 10, minutes := 40 } }

/-- Demo roster row for station A. -/
def stationA : Station :=
  { short_name := "A", lat := "42.1", lon := "-71.1",
    departures := 0, arrivals := 0, totalTraffic := 0 }

/-- Demo roster row for station B. -/
def stationB : Station :=
  { short_name := "B", lat := "42.2", lon := "-71.2",
    departures := 0, arrivals := 0, totalTraffic := 0 }

/-- A departure index whose only trip sits in bucket 640. -/
def idx640 : List (List Trip) :=
  (List.replicate 1440 ([] : List Trip)).set 640 [trip640]

/-- The freshly allocated index: 1440 empty buckets. -/
def emptyIdx : List (List Trip) :=
  List.replicate 1440 []

/-! ## Window resolver lemmas -/

theorem filterByMinute_neg_one (idx : List (List Trip)) :
    filterByMinute idx (-1) = idx.flatten := by
  unfold filterByMinute
  rw [if_pos rfl]

theorem windowMinutes_length (m : Nat) : (windowMinutes m).length = 120 := by
  simp [windowMinutes]

theorem windowMinutes_nodup (m : Nat) : (windowMinutes m).Nodup := by
  unfold windowMinutes
  refine List.Nodup.map_on ?_ (List.nodup_range 120)
  intro x hx y hy hxy
  rw [List.mem_range] at hx hy
  omega

theorem filterByMinute_eq_windowMinutes (idx : List (List Trip)) (m : Nat)
    (hlen : idx.length = 1440) (hm : m < 1440) :
    filterByMinute idx (m : Int) =
      ((windowMinutes m).map (fun i => idx.getD i [])).flatten := by
  have hne : ¬((m : Int) = -1) := by omega
  have hmin : (((m : Int) - 60 + 1440) % 1440).toNat = (m + 1380) % 1440 := by omega
  have hmax : (((m : Int) + 60) % 1440).toNat = (m + 60) % 1440 := by omega
  unfold filterByMinute
  rw [if_neg hne]
  simp only [hmin, hmax]
  rcases Nat.lt_or_ge m 60 with h60 | h60
  · have ha : (m + 1380) % 1440 = m + 1380 := by omega
    have hb : (m + 60) % 1440 = m + 60 := by omega
    rw [ha, hb, if_pos (by omega)]
    refine congrArg List.flatten ?_
    apply List.ext_getElem
    · simp [windowMinutes, hlen]
      omega
    · intro k h1 h2
      have hk120 : k < 120 := by simpa [windowMinutes] using h2
      simp only [windowMinutes, List.getElem_map, List.getElem_range]
      rw [List.getElem_append]
      by_cases hk : k < (idx.drop (m + 1380)).length
      · rw [dif_pos hk, List.getElem_drop]
        have hkb : k < 60 - m := by simpa [hlen] using hk
        have hidx : (m + 1380 + k) % 1440 = m + 1380 + k := by omega
        rw [hidx, List.getD_eq_getElem idx [] (by omega)]
      · rw [dif_neg hk, List.getElem_take]
        have hkb : ¬(k < 60 - m) := by simpa [hlen] using hk
        rw [List.getD_eq_getElem idx [] (show (m + 1380 + k) % 1440 < idx.length by omega)]
        congr 1
        simp only [List.length_drop, hlen]
        omega
  · rcases Nat.lt_or_ge m 1380 with h1380 | h1380
    · have ha : (m + 1380) % 1440 = m - 60 := by omega
      have hb : (m + 60) % 1440 = m + 60 := by omega
      rw [ha, hb, if_neg (by omega)]
      refine congrArg List.flatten ?_
      apply List.ext_getElem
      · simp [windowMinutes, hlen]
        omega
      · intro k h1 h2
        have hk120 : k < 120 := by simpa [windowMinutes] using h2
        simp only [windowMinutes, List.getElem_map, List.getElem_range]
        rw [List.getElem_take, List.getElem_drop]
        have hidx : (m + 1380 + k) % 1440 = (m - 60) + k := by omega
        rw [hidx, List.getD_eq_getElem idx [] (by omega)]
    · have ha : (m + 1380) % 1440 = m - 60 := by omega
      have hb : (m + 60) % 1440 = m - 1380 := by omega
      rw [ha, hb, if_pos (by omega)]
      refine congrArg List.flatten ?_
      apply List.ext_getElem
      · simp [windowMinutes, hlen]
        omega
      · intro k h1 h2
        have hk120 : k < 120 := by simpa [windowMinutes] using h2
        simp only [windowMinutes, List.getElem_map, List.getElem_range]
        rw [List.getElem_append]
        by_cases hk : k < (idx.drop (m - 60)).length
        · rw [dif_pos hk, List.getElem_drop]
          have hkb : k < 1500 - m := by
            have := hk
            simp only [List.length_drop, hlen] at this
            omega
          have hidx : (m + 1380 + k) % 1440 = (m - 60) + k := by omega
          rw [hidx, List.getD_eq_getElem idx [] (by omega)]
        · rw [dif_neg hk, List.getElem_take]
          have hkb : ¬(k < 1500 - m) := by
            intro hc
            exact hk (by simp only [List.length_drop, hlen]; omega)
          rw [List.getD_eq_getElem idx [] (show (m + 1380 + k) % 1440 < idx.length by omega)]
          congr 1
          simp only [List.length_drop, hlen]
          omega

/-! ## Claims about the window resolver -/

/-- C1 counterexample: the claim says that for centerMinute 700 the resolved
set excludes bucket 640 (its minMinute formula carries a spurious +1).  In
the code, `minMinute = (700 - 60 + 1440) % 1440 = 640`, so a trip stored in
bucket 640 is returned: on an index whose only trip sits in bucket 640, the
resolver at minute 700 returns exactly that trip, while the claimed window
641..759 would return nothing. -/
theorem C1_counterexample : filterByMinute idx640 700 = [trip640] := by decide

/-- C1 (amended): for every centerMinute in [0,1439] the resolver returns
the flattened buckets of the half-open circular interval
[minMinute, minMinute + 120) where `minMinute = (centerMinute - 60 + 1440) %
1440` (no +1 term), handling the wrap by concatenating buckets
[minMinute, 1440) with buckets [0, maxMinute); in particular for
centerMinute 700 the window is exactly buckets 640..759, including 640. -/
theorem C1_window_formula (idx : List (List Trip)) (m : Nat)
    (hlen : idx.length = 1440) (hm : m < 1440) :
    filterByMinute idx (m : Int) =
      ((windowMinutes m).map (fun i => idx.getD i [])).flatten ∧
    windowMinutes 700 = List.range' 640 120 :=
  ⟨filterByMinute_eq_windowMinutes idx m hlen hm, by decide⟩

/-- C1 witness: the amended window equation instantiated at centerMinute 700
over the index holding one trip in bucket 640. -/
theorem C1_window_formula_witness :
    filterByMinute idx640 ((700 : Nat) : Int) =
      ((windowMinutes 700).map (fun i => idx640.getD i [])).flatten ∧
    windowMinutes 700 = List.range' 640 120 :=
  C1_window_formula idx640 700 (by unfold idx640; rw [List.length_set, List.length_replicate]) (by omega)

/-- C5: for every centerMinute in [0,1439] the resolved window covers
exactly 120 distinct minutes of the circular minute space, and the resolved
trip list is the flattened concatenation of exactly those 120 buckets. -/
theorem C5_window_covers_120 (idx : List (List Trip)) (m : Nat)
    (hlen : idx.length = 1440) (hm : m < 1440) :
    (windowMinutes m).length = 120 ∧ (windowMinutes m).Nodup ∧
    filterByMinute idx (m : Int) =
      ((windowMinutes m).map (fun i => idx.getD i [])).flatten :=
  ⟨windowMinutes_length m, windowMinutes_nodup m,
    filterByMinute_eq_windowMinutes idx m hlen hm⟩

/-- C5 witness: the 120-bucket window instantiated at the wrapping
centerMinute 10 over the empty index. -/
theorem C5_window_covers_120_witness :
    (windowMinutes 10).length = 120 ∧ (windowMinutes 10).Nodup ∧
    filterByMinute emptyIdx ((10 : Nat) : Int) =
      ((windowMinutes 10).map (fun i => emptyIdx.getD i [])).flatten :=
  C5_window_covers_120 emptyIdx 10 (by unfold emptyIdx; rw [List.length_replicate]) (by omega)

/-- C7: with the sentinel -1 the resolver returns the flattening of all 1440
buckets of the given index, in bucket order, with no minute filtering. -/
theorem C7_sentinel_all_buckets (idx : List (List Trip)) (hlen : idx.length = 1440) :
    filterByMinute idx (-1) = ((List.range 1440).map (fun i => idx.getD i [])).flatten := by
  have hidx : (List.range 1440).map (fun i => idx.getD i []) = idx := by
    apply List.ext_getElem
    · simp [hlen]
    · intro k h1 h2
      have hk : k < 1440 := by simpa using h1
      simp only [List.getElem_map, List.getElem_range]
      rw [List.getD_eq_getElem idx [] (by omega)]
  rw [hidx, filterByMinute_neg_one]

/-- C7 witness: the sentinel query instantiated on the index holding one
trip in bucket 640. -/
theorem C7_sentinel_all_buckets_witness :
    filterByMinute idx640 (-1) =
      ((List.range 1440).map (fun i => idx640.getD i [])).flatten :=
  C7_sentinel_all_buckets idx640 (by unfold idx640; rw [List.length_set, List.length_replicate])

/-- C10: for every centerMinute m in [0,1439] the resolved window is the
half-open circular interval from m-60 to m+60: the bucket at minute
(m - 60 + 1440) % 1440 (written (m + 1380) % 1440 over Nat) and the bucket
at m itself are selected, while the bucket at minute (m + 60) % 1440 is not,
and the resolver output is exactly the flattening of the selected
buckets. -/
theorem C10_boundary_minutes (idx : List (List Trip)) (m : Nat)
    (hlen : idx.length = 1440) (hm : m < 1440) :
    (m + 1380) % 1440 ∈ windowMinutes m ∧ m ∈ windowMinutes m ∧
    (m + 60) % 1440 ∉ windowMinutes m ∧
    filterByMinute idx (m : Int) =
      ((windowMinutes m).map (fun i => idx.getD i [])).flatten := by
  refine ⟨?_, ?_, ?_, filterByMinute_eq_windowMinutes idx m hlen hm⟩
  · unfold windowMinutes
    rw [List.mem_map]
    exact ⟨0, by simp [List.mem_range], by omega⟩
  · unfold windowMinutes
    rw [List.mem_map]
    exact ⟨60, by simp [List.mem_range], by omega⟩
  · unfold windowMinutes
    rw [List.mem_map]
    rintro ⟨k, hk, hkeq⟩
    rw [List.mem_range] at hk
    omega

/-- C10 witness: the boundary facts instantiated at the wrapping
centerMinute 0 over the empty index: bucket 1380 and bucket 0 are selected,
bucket 60 is not. -/
theorem C10_boundary_minutes_witness :
    (0 + 1380) % 1440 ∈ windowMinutes 0 ∧ 0 ∈ windowMinutes 0 ∧
    (0 + 60) % 1440 ∉ windowMinutes 0 ∧
    filterByMinute emptyIdx ((0 : Nat) : Int) =
      ((windowMinutes 0).map (fun i => emptyIdx.getD i [])).flatten :=
  C10_boundary_minutes emptyIdx 0 (by unfold emptyIdx; rw [List.length_replicate]) (by omega)

/-! ## Bucket index build lemmas -/

theorem buildStep_length_fst (st : List (List Trip) × List (List Trip)) (d : Trip) :
    (buildStep st d).1.length = st.1.length := by
  unfold buildStep
  repeat' split
  all_goals simp_all [List.length_set]

theorem buildStep_length_snd (st : List (List Trip) × List (List Trip)) (d : Trip) :
    (buildStep st d).2.length = st.2.length := by
  unfold buildStep
  repeat' split
  all_goals simp_all [List.length_set]

theorem sumSizes_push (l : List (List Trip)) (i : Nat) (d : Trip) (h : i < l.length) :
    sumSizes (l.set i (l.getD i [] ++ [d])) = sumSizes l + 1 := by
  induction l generalizing i with
  | nil => simp at h
  | cons x xs ih =>
    cases i with
    | zero =>
      simp [sumSizes, List.length_append]
      omega
    | succ j =>
      have hj : j < xs.length := by simpa using h
      rw [List.getD_cons_succ, List.set_cons_succ]
      simp only [sumSizes, List.map_cons, List.sum_cons]
      have := ih j hj
      simp only [sumSizes] at this
      omega

theorem buildStep_sumSizes_fst (st : List (List Trip) × List (List Trip)) (d : Trip)
    (h1 : st.1.length = 1440) :
    sumSizes (buildStep st d).1 = sumSizes st.1 + (if hasValidStart d then 1 else 0) := by
  unfold buildStep hasValidStart
  cases hs : tripStartMin d with
  | none => simp
  | some sMin =>
    dsimp only
    by_cases hb : sMin < st.1.length
    · rw [if_pos hb]
      have hlt : sMin < 1440 := by omega
      cases he : tripEndMin d with
      | none =>
        simp only [decide_eq_true hlt, if_pos]
        exact sumSizes_push st.1 sMin d hb
      | some eMin =>
        by_cases hb2 : eMin < st.2.length
        · simp only [if_pos hb2, decide_eq_true hlt]
          simp only [if_pos]
          exact sumSizes_push st.1 sMin d hb
        · simp only [if_neg hb2, decide_eq_true hlt]
          simp only [if_pos]
          exact sumSizes_push st.1 sMin d hb
    · rw [if_neg hb]
      have hlt : ¬(sMin < 1440) := by omega
      simp [hlt]

theorem buildStep_sumSizes_snd (st : List (List Trip) × List (List Trip)) (d : Trip)
    (h1 : st.1.length = 1440) (h2 : st.2.length = 1440) :
    sumSizes (buildStep st d).2 = sumSizes st.2 + (if isValidTrip d then 1 else 0) := by
  unfold buildStep isValidTrip hasValidStart hasValidEnd
  cases hs : tripStartMin d with
  | none => simp
  | some sMin =>
    dsimp only
    by_cases hb : sMin < st.1.length
    · rw [if_pos hb]
      have hlt : sMin < 1440 := by omega
      cases he : tripEndMin d with
      | none => simp [decide_eq_true hlt]
      | some eMin =>
        dsimp only
        by_cases hb2 : eMin < st.2.length
        · have hlt2 : eMin < 1440 := by omega
          rw [if_pos hb2]
          simp only [decide_eq_true hlt, decide_eq_true hlt2, Bool.true_and, if_pos]
          exact sumSizes_push st.2 eMin d hb2
        · have hlt2 : ¬ (eMin < 1440) := by omega
          rw [if_neg hb2]
          simp [decide_eq_true hlt, hlt2]
    · rw [if_neg hb]
      have hlt : ¬ (sMin < 1440) := by omega
      simp [hlt]

theorem mem_flatten_set_push {x : Trip} {l : List (List Trip)} {i : Nat} {d : Trip}
    (hx : x ∈ (l.set i (l.getD i [] ++ [d])).flatten) : x ∈ l.flatten ∨ x = d := by
  rw [List.mem_flatten] at hx
  obtain ⟨b, hb, hxb⟩ := hx
  rcases List.mem_or_eq_of_mem_set hb with h | h
  · exact Or.inl (List.mem_flatten.mpr ⟨b, h, hxb⟩)
  · subst h
    rcases List.mem_append.mp hxb with h | h
    · by_cases hi : i < l.length
      · refine Or.inl (List.mem_flatten.mpr ⟨l.getD i [], ?_, h⟩)
        rw [List.getD_eq_getElem l [] hi]
        exact List.getElem_mem hi
      · rw [List.getD_eq_getElem?_getD, List.getElem?_eq_none (by omega)] at h
        simp at h
    · simp only [List.mem_singleton] at h
      exact Or.inr h

theorem buildStep_mem_fst {x : Trip} (st : List (List Trip) × List (List Trip)) (d : Trip)
    (hx : x ∈ (buildStep st d).1.flatten) : x ∈ st.1.flatten ∨ x = d := by
  unfold buildStep at hx
  split at hx
  · exact Or.inl hx
  · split at hx
    · dsimp only at hx
      split at hx
      · exact mem_flatten_set_push hx
      · split at hx
        · exact mem_flatten_set_push hx
        · exact mem_flatten_set_push hx
    · exact Or.inl hx

theorem buildStep_mem_snd {x : Trip} (st : List (List Trip) × List (List Trip)) (d : Trip)
    (hx : x ∈ (buildStep st d).2.flatten) : x ∈ st.2.flatten ∨ x = d := by
  unfold buildStep at hx
  split at hx
  · exact Or.inl hx
  · split at hx
    · dsimp only at hx
      split at hx
      · exact Or.inl hx
      · split at hx
        · exact mem_flatten_set_push hx
        · exact Or.inl hx
    · exact Or.inl hx

theorem foldl_build_lengths (trips : List Trip) (st : List (List Trip) × List (List Trip)) :
    (trips.foldl buildStep st).1.length = st.1.length ∧
    (trips.foldl buildStep st).2.length = st.2.length := by
  induction trips generalizing st with
  | nil => exact ⟨rfl, rfl⟩
  | cons t ts ih =>
    simp only [List.foldl_cons]
    refine ⟨?_, ?_⟩
    · rw [(ih (buildStep st t)).1, buildStep_length_fst]
    · rw [(ih (buildStep st t)).2, buildStep_length_snd]

theorem foldl_build_sumSizes (trips : List Trip) (st : List (List Trip) × List (List Trip))
    (h1 : st.1.length = 1440) (h2 : st.2.length = 1440) :
    sumSizes (trips.foldl buildStep st).1 = sumSizes st.1 + trips.countP hasValidStart ∧
    sumSizes (trips.foldl buildStep st).2 = sumSizes st.2 + trips.countP isValidTrip := by
  induction trips generalizing st with
  | nil => simp
  | cons t ts ih =>
    simp only [List.foldl_cons, List.countP_cons]
    have hl1 : (buildStep st t).1.length = 1440 := by rw [buildStep_length_fst]; exact h1
    have hl2 : (buildStep st t).2.length = 1440 := by rw [buildStep_length_snd]; exact h2
    obtain ⟨i1, i2⟩ := ih (buildStep st t) hl1 hl2
    constructor
    · rw [i1, buildStep_sumSizes_fst st t h1]
      by_cases hv : hasValidStart t <;> simp [hv] <;> omega
    · rw [i2, buildStep_sumSizes_snd st t h1 h2]
      by_cases hv : isValidTrip t <;> simp [hv] <;> omega

theorem foldl_build_mem_fst {x : Trip} (trips : List Trip)
    (st : List (List Trip) × List (List Trip))
    (hx : x ∈ (trips.foldl buildStep st).1.flatten) : x ∈ st.1.flatten ∨ x ∈ trips := by
  induction trips generalizing st with
  | nil => exact Or.inl hx
  | cons t ts ih =>
    simp only [List.foldl_cons] at hx
    rcases ih (buildStep st t) hx with h | h
    · rcases buildStep_mem_fst st t h with h' | h'
      · exact Or.inl h'
      · exact Or.inr (by simp [h'])
    · exact Or.inr (List.mem_cons_of_mem _ h)

theorem foldl_build_mem_snd {x : Trip} (trips : List Trip)
    (st : List (List Trip) × List (List Trip))
    (hx : x ∈ (trips.foldl buildStep st).2.flatten) : x ∈ st.2.flatten ∨ x ∈ trips := by
  induction trips generalizing st with
  | nil => exact Or.inl hx
  | cons t ts ih =>
    simp only [List.foldl_cons] at hx
    rcases ih (buildStep st t) hx with h | h
    · rcases buildStep_mem_snd st t h with h' | h'
      · exact Or.inl h'
      · exact Or.inr (by simp [h'])
    · exact Or.inr (List.mem_cons_of_mem _ h)

theorem sumSizes_replicate (n : Nat) : sumSizes (List.replicate n []) = 0 := by
  unfold sumSizes
  rw [List.map_replicate, List.sum_replicate]
  simp

theorem flatten_replicate_nil (n : Nat) :
    (List.replicate n ([] : List Trip)).flatten = [] := by
  induction n with
  | zero => rfl
  | succ k ih => simp [List.replicate_succ, ih]

theorem buildIndex_lengths (trips : List Trip) :
    (buildIndex trips).1.length = 1440 ∧ (buildIndex trips).2.length = 1440 := by
  unfold buildIndex
  have h := foldl_build_lengths trips (List.replicate 1440 [], List.replicate 1440 [])
  rw [List.length_replicate] at h
  exact h

theorem buildIndex_sumSizes (trips : List Trip) :
    sumSizes (buildIndex trips).1 = trips.countP hasValidStart ∧
    sumSizes (buildIndex trips).2 = trips.countP isValidTrip := by
  unfold buildIndex
  have h := foldl_build_sumSizes trips (List.replicate 1440 [], List.replicate 1440 [])
    (by rw [List.length_replicate]) (by rw [List.length_replicate])
  rw [sumSizes_replicate] at h
  simpa using h

theorem buildIndex_mem_fst {x : Trip} (trips : List Trip)
    (hx : x ∈ (buildIndex trips).1.flatten) : x ∈ trips := by
  unfold buildIndex at hx
  rcases foldl_build_mem_fst trips _ hx with h | h
  · rw [flatten_replicate_nil] at h
    cases h
  · exact h

theorem buildIndex_mem_snd {x : Trip} (trips : List Trip)
    (hx : x ∈ (buildIndex trips).2.flatten) : x ∈ trips := by
  unfold buildIndex at hx
  rcases foldl_build_mem_snd trips _ hx with h | h
  · rw [flatten_replicate_nil] at h
    cases h
  · exact h

/-! ## Claims about the index build -/

/-- C2 (refuted, code bug): the claim says a trip whose end minute cannot be
derived is excluded from both indices.  In the code the departure push runs
before the end-minute push inside the same try block, so a trip with a
parseable start (minute 700) and a malformed end timestamp stays in
departure bucket 700 while the arrival index remains empty: the trip is
excluded from one index, not both. -/
theorem C2_half_indexed_trip :
    sumSizes (buildIndex [tripBadEnd]).1 = 1 ∧
    (buildIndex [tripBadEnd]).1.getD 700 [] = [tripBadEnd] ∧
    sumSizes (buildIndex [tripBadEnd]).2 = 0 := by decide

/-- C3 (refuted, code bug): over the collection [tripAB, tripBadEnd] the
count of trips with both minutes valid is 1 and the arrival index indeed
holds 1 trip, but the departure index holds 2 trips (the half-indexed
tripBadEnd included), contradicting the claimed equality of the two bucket
size sums with the valid-trip count. -/
theorem C3_sum_mismatch :
    sumSizes (buildIndex [tripAB, tripBadEnd]).1 = 2 ∧
    sumSizes (buildIndex [tripAB, tripBadEnd]).2 = 1 ∧
    List.countP isValidTrip [tripAB, tripBadEnd] = 1 := by decide

/-! ## Aggregator lemmas -/

theorem rollupGet_eq_countP (trips : List Trip) (key : Trip → String) (i : String) :
    rollupGet trips key i = trips.countP (fun t => key t == i) := by
  rw [rollupGet, List.countP_eq_length_filter]

theorem sum_map_add {α : Type} (l : List α) (f g : α → Nat) :
    (l.map (fun a => f a + g a)).sum = (l.map f).sum + (l.map g).sum := by
  induction l with
  | nil => rfl
  | cons x xs ih =>
    simp only [List.map_cons, List.sum_cons, ih]
    omega

theorem sum_indicator (ids : List String) (a : String) (hnodup : ids.Nodup) (hmem : a ∈ ids) :
    (ids.map (fun i => if (a == i) = true then 1 else 0)).sum = 1 := by
  induction ids with
  | nil => cases hmem
  | cons x xs ih =>
    rw [List.map_cons, List.sum_cons]
    rcases List.mem_cons.mp hmem with h | h
    · subst h
      rw [if_pos (by simp)]
      have hx : a ∉ xs := (List.nodup_cons.mp hnodup).1
      have hzero : (xs.map (fun i => if (a == i) = true then 1 else 0)).sum = 0 := by
        apply List.sum_eq_zero
        intro y hy
        rw [List.mem_map] at hy
        obtain ⟨j, hj, rfl⟩ := hy
        have hne : ¬ (a == j) = true := by
          simp only [beq_iff_eq]
          rintro rfl
          exact hx hj
        rw [if_neg hne]
      rw [hzero]
    · have hne : ¬ (a == x) = true := by
        simp only [beq_iff_eq]
        rintro rfl
        exact (List.nodup_cons.mp hnodup).1 h
      rw [if_neg hne, ih (List.nodup_cons.mp hnodup).2 h]

theorem sum_countP_eq_length (ids : List String) (trips : List Trip) (key : Trip → String)
    (hnodup : ids.Nodup) (hcover : ∀ t ∈ trips, key t ∈ ids) :
    (ids.map (fun i => trips.countP (fun t => key t == i))).sum = trips.length := by
  induction trips with
  | nil => simp
  | cons t ts ih =>
    have hts : ∀ u ∈ ts, key u ∈ ids := fun u hu => hcover u (List.mem_cons_of_mem _ hu)
    simp only [List.countP_cons]
    rw [sum_map_add ids (fun i => ts.countP (fun u => key u == i))
      (fun i => if (key t == i) = true then 1 else 0)]
    rw [ih hts, sum_indicator ids (key t) hnodup (hcover t (List.mem_cons_self t ts))]
    simp

theorem sumSizes_eq_flatten_length (l : List (List Trip)) :
    l.flatten.length = sumSizes l := by
  rw [List.length_flatten]
  rfl

/-! ## Claims about the aggregator -/

/-- C4: for every roster and pair of trip lists the aggregator maps each
roster row, in roster order, to the same row with departures set to the
number of departure trips whose start station identifier equals the row
identifier, arrivals to the analogous arrival count, and totalTraffic to
their sum; rows whose identifier matches no trip get 0, 0 and 0, never an
error or a missing field. -/
theorem C4_aggregate_counts (stations : List Station) (depTrips arrTrips : List Trip) (i : Nat) :
    (aggregate stations depTrips arrTrips)[i]? =
      (stations[i]?).map (fun st =>
        { st with
          departures := depTrips.countP (fun t => t.start_station_id == st.short_name),
          arrivals := arrTrips.countP (fun t => t.end_station_id == st.short_name),
          totalTraffic :=
            depTrips.countP (fun t => t.start_station_id == st.short_name) +
            arrTrips.countP (fun t => t.end_station_id == st.short_name) }) := by
  unfold aggregate
  rw [List.getElem?_map]
  cases stations[i]? with
  | none => rfl
  | some st =>
    simp only [Option.map_some']
    congr 1
    simp [rollupGet, List.countP_eq_length_filter]

/-- C8: the query pipeline is deterministic (it is a pure function of the
index, roster and minute) and idempotent: running computeStationTraffic a
second time on the roster produced by a first run with the same index and
minute reproduces exactly the same per-station departure, arrival and
totalTraffic values. -/
theorem C8_idempotent (dep arr : List (List Trip)) (stations : List Station) (t : Int) :
    computeStationTraffic dep arr (computeStationTraffic dep arr stations t) t =
      computeStationTraffic dep arr stations t := by
  unfold computeStationTraffic aggregate
  rw [List.map_map]
  apply List.map_congr_left
  intro st _
  rfl

/-- C9: the aggregator leaves the trip collections untouched (it is a pure
function of them) and on the roster writes only the three derived fields:
the roster keeps its length and every row keeps its identifier and its
coordinates. -/
theorem C9_frame (stations : List Station) (depTrips arrTrips : List Trip) (i : Nat) :
    (aggregate stations depTrips arrTrips).length = stations.length ∧
    ((aggregate stations depTrips arrTrips)[i]?).map Station.short_name =
      (stations[i]?).map Station.short_name ∧
    ((aggregate stations depTrips arrTrips)[i]?).map Station.lat =
      (stations[i]?).map Station.lat ∧
    ((aggregate stations depTrips arrTrips)[i]?).map Station.lon =
      (stations[i]?).map Station.lon := by
  unfold aggregate
  refine ⟨by simp, ?_, ?_, ?_⟩ <;>
    · rw [List.getElem?_map]
      cases stations[i]? <;> rfl

/-- C6 counterexample: a valid trip whose stations are absent from the
roster contributes to no roster row, so on roster [stationA] with the single
valid trip tripCC the unfiltered totals sum to 0 while the claim demands
2 * validTripCount = 2. -/
theorem C6_counterexample :
    ((computeStationTraffic (buildIndex [tripCC]).1 (buildIndex [tripCC]).2 [stationA]
        (-1)).map Station.totalTraffic).sum = 0 ∧
    List.countP isValidTrip [tripCC] = 1 := by decide

/-- C6 (amended): the unfiltered query gives every station
departures + arrivals = totalTraffic, and provided the roster identifiers
are distinct, every indexed trip has both minutes derivable, and every trip
identifier occurs in the roster, the totals over the roster sum to
2 * validTripCount. -/
theorem C6_unfiltered_totals (stations : List Station) (trips : List Trip)
    (hnodup : (stations.map Station.short_name).Nodup)
    (hvalid : ∀ t ∈ trips, isValidTrip t = true)
    (hcover : ∀ t ∈ trips, t.start_station_id ∈ stations.map Station.short_name ∧
      t.end_station_id ∈ stations.map Station.short_name) :
    (∀ s ∈ computeStationTraffic (buildIndex trips).1 (buildIndex trips).2 stations (-1),
      s.departures + s.arrivals = s.totalTraffic) ∧
    ((computeStationTraffic (buildIndex trips).1 (buildIndex trips).2 stations (-1)).map
        Station.totalTraffic).sum = 2 * trips.countP isValidTrip := by
  unfold computeStationTraffic
  rw [filterByMinute_neg_one, filterByMinute_neg_one]
  constructor
  · intro s hs
    unfold aggregate at hs
    rw [List.mem_map] at hs
    obtain ⟨st, hst, rfl⟩ := hs
    rfl
  · unfold aggregate
    rw [List.map_map]
    show (stations.map (fun st =>
      rollupGet (buildIndex trips).1.flatten (fun t => t.start_station_id) st.short_name +
      rollupGet (buildIndex trips).2.flatten (fun t => t.end_station_id) st.short_name)).sum = _
    simp only [rollupGet_eq_countP]
    rw [sum_map_add stations
      (fun st => (buildIndex trips).1.flatten.countP
        (fun t => t.start_station_id == st.short_name))
      (fun st => (buildIndex trips).2.flatten.countP
        (fun t => t.end_station_id == st.short_name))]
    have hdep : (stations.map (fun st =>
        (buildIndex trips).1.flatten.countP
          (fun t => t.start_station_id == st.short_name))).sum =
        (buildIndex trips).1.flatten.length := by
      rw [show (fun st : Station =>
          (buildIndex trips).1.flatten.countP
            (fun t => t.start_station_id == st.short_name)) =
          ((fun i => (buildIndex trips).1.flatten.countP
            (fun t => t.start_station_id == i)) ∘ Station.short_name) from rfl]
      rw [← List.map_map]
      exact sum_countP_eq_length (stations.map Station.short_name) _ _ hnodup
        (fun t ht => (hcover t (buildIndex_mem_fst trips ht)).1)
    have harr : (stations.map (fun st =>
        (buildIndex trips).2.flatten.countP
          (fun t => t.end_station_id == st.short_name))).sum =
        (buildIndex trips).2.flatten.length := by
      rw [show (fun st : Station =>
          (buildIndex trips).2.flatten.countP
            (fun t => t.end_station_id == st.short_name)) =
          ((fun i => (buildIndex trips).2.flatten.countP
            (fun t => t.end_station_id == i)) ∘ Station.short_name) from rfl]
      rw [← List.map_map]
      exact sum_countP_eq_length (stations.map Station.short_name) _ _ hnodup
        (fun t ht => (hcover t (buildIndex_mem_snd trips ht)).2)
    rw [hdep, harr, sumSizes_eq_flatten_length, sumSizes_eq_flatten_length]
    rw [(buildIndex_sumSizes trips).1, (buildIndex_sumSizes trips).2]
    have hvl : trips.countP isValidTrip = trips.length := List.countP_eq_length.mpr hvalid
    have hvs : trips.countP hasValidStart = trips.length := by
      apply List.countP_eq_length.mpr
      intro t ht
      have hv := hvalid t ht
      unfold isValidTrip at hv
      simp only [Bool.and_eq_true] at hv
      exact hv.1
    omega

/-- C6 witness: the amended unfiltered-totals theorem instantiated on the
two-station roster [A, B] with the two valid demo trips between them, where
both sides of the sum equation evaluate to 4. -/
theorem C6_unfiltered_totals_witness :
    (∀ s ∈ computeStationTraffic (buildIndex [tripAB, tripBA]).1
        (buildIndex [tripAB, tripBA]).2 [stationA, stationB] (-1),
      s.departures + s.arrivals = s.totalTraffic) ∧
    ((computeStationTraffic (buildIndex [tripAB, tripBA]).1
        (buildIndex [tripAB, tripBA]).2 [stationA, stationB] (-1)).map
        Station.totalTraffic).sum = 2 * List.countP isValidTrip [tripAB, tripBA] :=
  C6_unfiltered_totals [stationA, stationB] [tripAB, tripBA] (by decide) (by decide)
    (by decide)


end Bikewatching
